import Mathlib

/-!
# Verification of the cosmwasm contract-checking CLI orchestration layer

Shallow embedding of `packages/check/src/main.rs`: policy resolution
(capabilities and Wasm limits from CLI flags or a serialized config file),
the per-file check-and-compile pipeline, and batch reporting with exit-code
semantics.

The external validation/compilation engine (`cosmwasm_vm`) is treated as an
opaque collaborator: its fallible operations are fields of a `World` record
over which all theorems quantify.  The repository source under scrutiny is
only the orchestration in `main.rs`; functions of `cosmwasm_vm` that are
referenced but whose source is not part of the checked tree are modelled
from the specification and marked as such in their doc comments.
-/

namespace CosmwasmCheck

/-- Bytes of a file, modelled as a list of naturals (contents are opaque to
the orchestration layer; only equality matters). -/
abbrev Bytes : Type := List Nat

/-- Destination selector of the diagnostic logger (`LogOutput` in
`cosmwasm_vm::internals`): standard output or the error stream. -/
inductive LogOutput : Type
  | StdOut : LogOutput
  | StdErr : LogOutput
deriving DecidableEq

/-- The logger handed to the external validation call (`Logger` in
`cosmwasm_vm::internals`): either enabled with a line prefix and an output
selector, or a no-op sink. -/
inductive Logger : Type
  | On : (pre : String) → (output : LogOutput) → Logger
  | Off : Logger
deriving DecidableEq

/-- Modelled from the spec: the cache sub-structure of the chain
configuration (`CacheOptions` of `cosmwasm_vm`, not under the checked
sources) carries the capability set nested inside the decoded config. -/
structure CacheOptions : Type where
  available_capabilities : Finset String
deriving DecidableEq

/-- Modelled from the spec: the decoded chain configuration (`Config` of
`cosmwasm_vm`, not under the checked sources) contains a resource-limit
policy and, nested within the cache sub-structure, a capability set.  The
limit-policy type `WL` is owned by the external engine and left abstract. -/
structure Config (WL : Type) : Type where
  wasm_limits : WL
  cache : CacheOptions

instance {WL : Type} [DecidableEq WL] : DecidableEq (Config WL) :=
  fun a b =>
    decidable_of_iff
      (a.wasm_limits = b.wasm_limits ∧ a.cache = b.cache)
      (by cases a; cases b; simp)

/-- The external collaborator: file system and the opaque
validation/compilation engine.  `WL` is the external resource-limit policy
type (`WasmLimits`), `Engine` and `Module` the compiler's types.
`validate` is the pass/fail core of the external static check,
`diagnostics` the raw diagnostic lines it would emit (the logger decides
whether and how they reach the error stream), `defaultLimits` the
`WasmLimits::default()` value, `decodeConfig` the binary (MessagePack)
decoder of a config blob. -/
structure World (WL Engine Module : Type) : Type where
  fs : String → Except String Bytes
  decodeConfig : Bytes → Except String (Config WL)
  defaultLimits : WL
  validate : Bytes → Finset String → WL → Except String Unit
  diagnostics : Bytes → Finset String → WL → List String
  freshEngine : Unit → Engine
  compileFn : Engine → Bytes → Except String Module

/-- Error taxonomy of the config loader: the file cannot be opened
(`IoError`) or its bytes are not a valid encoding (`DecodeError`,
wrapping the underlying cause). -/
inductive ConfigError : Type
  | IoError : String → ConfigError
  | DecodeError : String → ConfigError
deriving DecidableEq

/-- Error taxonomy of the per-file check: read failure, static-validation
failure, or compile failure. -/
inductive CheckError : Type
  | IoError : String → CheckError
  | ValidationError : String → CheckError
  | CompileError : String → CheckError
deriving DecidableEq

/-- The human-readable diagnostic carried by a per-file failure. -/
def CheckError.message : CheckError → String
  | .IoError m => m
  | .ValidationError m => m
  | .CompileError m => m

instance {ε α : Type} [DecidableEq ε] [DecidableEq α] : DecidableEq (Except ε α) :=
  fun a b =>
    match a, b with
    | .ok x, .ok y => decidable_of_iff (x = y) (by simp)
    | .error x, .error y => decidable_of_iff (x = y) (by simp)
    | .ok _, .error _ => .isFalse (fun h => Except.noConfusion h)
    | .error _, .ok _ => .isFalse (fun h => Except.noConfusion h)

/-- Boolean success test on `Except` (the shape `result.is_ok()` used by the
partition in `main`). -/
def isOkE {ε α : Type} : Except ε α → Bool
  | .ok _ => true
  | .error _ => false

/-- `DEFAULT_AVAILABLE_CAPABILITIES` from `main.rs`: the fixed default
capability list used when neither flag nor config file is given. -/
def DEFAULT_AVAILABLE_CAPABILITIES : String :=
  "iterator,staking,stargate,cosmwasm_1_1,cosmwasm_1_2,cosmwasm_1_3,cosmwasm_1_4,cosmwasm_2_0,cosmwasm_2_1"

/-- Split a character list into the chunks between occurrences of the
separator character (the semantics of splitting a string on a single-char
separator; implemented structurally so that it evaluates inside the
kernel). -/
def splitOnChar (sep : Char) : List Char → List (List Char)
  | [] => [[]]
  | c :: rest =>
    let r := splitOnChar sep rest
    if c = sep then [] :: r
    else (c :: r.headD []) :: r.tail

/-- The comma-separated tokens of a string, in order, duplicates kept. -/
def csvTokens (csv : String) : List String :=
  (splitOnChar ',' csv.data).map (fun l => String.mk l)

/-- Modelled from the spec: `capabilities_from_csv` lives in the external
`cosmwasm_vm` crate (only its caller is under the checked sources); per the
spec it splits the input on commas and normalizes the tokens into a set of
strings. -/
def capabilities_from_csv (csv : String) : Finset String :=
  (csvTokens csv).toFinset

/-- Modelled from the spec / Rust std: `Path::file_name` extracts the final
path component when one exists (used only to build the diagnostic prefix,
never affecting validation outcome). -/
def file_name (path : String) : Option String :=
  let comps := ((splitOnChar '/' path.data).map (fun l => String.mk l)).filter
    (fun c => c ≠ "" ∧ c ≠ ".")
  match comps.getLast? with
  | some c => if c = ".." then none else some c
  | none => none

/-- `read_config` from `main.rs`: open the file at `path` (adding the
context `error opening config file` on failure) and decode its bytes as a
binary-serialized `Config` (adding the context `error parsing config file`
on failure).  No partial result: either a full `Config` or an error. -/
def read_config {WL E M : Type} (w : World WL E M) (path : String) :
    Except ConfigError (Config WL) :=
  match w.fs path with
  | .error e => .error (.IoError ("error opening config file: " ++ e))
  | .ok bytes =>
    match w.decodeConfig bytes with
    | .error e => .error (.DecodeError ("error parsing config file: " ++ e))
    | .ok c => .ok c

/-- Modelled from the spec: `check_wasm_with_limits` of
`cosmwasm_vm::internals` performs the external static validation; its
pass/fail outcome depends on the bytes, the capability set and the limits,
while the logger only controls whether (and with what prefix) diagnostic
lines reach the error stream, never the outcome.  Returns the outcome
together with the emitted diagnostic lines. -/
def check_wasm_with_limits {WL E M : Type} (w : World WL E M) (wasm : Bytes)
    (caps : Finset String) (limits : WL) (logs : Logger) :
    Except String Unit × List String :=
  (w.validate wasm caps limits,
    match logs with
    | .On pre _ => (w.diagnostics wasm caps limits).map (fun l => pre ++ l)
    | .Off => [])

/-- `check_contract` from `main.rs`: read the file fully into memory
(failing with an `IoError`), derive the display identifier and build the
logger (enabled to the error stream with the `    <name>: ` prefix iff
`verbose`), run the external static validation, and only on success
construct a fresh compiling engine and compile the same bytes.  Returns the
outcome together with the diagnostic lines sent to the error stream. -/
def check_contract {WL E M : Type} (w : World WL E M) (path : String)
    (available_capabilities : Finset String) (verbose : Bool) (wasm_limits : WL) :
    Except CheckError Unit × List String :=
  match w.fs path with
  | .error e => (.error (.IoError e), [])
  | .ok wasm =>
    let filename_identifier : String := (file_name path).getD path
    let pre : String := "    " ++ filename_identifier ++ ": "
    let logs : Logger := if verbose then .On pre .StdErr else .Off
    let checked := check_wasm_with_limits w wasm available_capabilities wasm_limits logs
    match checked.1 with
    | .error e => (.error (.ValidationError e), checked.2)
    | .ok _ =>
      let engine := w.freshEngine ()
      match w.compileFn engine wasm with
      | .error e => (.error (.CompileError e), checked.2)
      | .ok _ => (.ok (), checked.2)

/-- The policy-resolution `match` at the top of `main`: a given config file
takes precedence (its limits and nested capability set verbatim, failing the
run if it cannot be loaded); otherwise the CSV flag — or, absent that, the
fixed default list — is parsed into capabilities and the default limits are
used. -/
def resolvePolicy {WL E M : Type} (w : World WL E M)
    (config_file : Option String) (available_capabilities_csv : Option String) :
    Except ConfigError (WL × Finset String) :=
  match config_file, available_capabilities_csv with
  | some cf, _ =>
    match read_config w cf with
    | .error e => .error e
    | .ok config => .ok (config.wasm_limits, config.cache.available_capabilities)
  | none, csv =>
    .ok (w.defaultLimits,
      capabilities_from_csv (csv.getD DEFAULT_AVAILABLE_CAPABILITIES))

/-- The two stdout lines printed right after a file's outcome is known:
`<path>: pass` on success, or `<path>: failure` followed by the diagnostic
message. -/
def reportLines (p : String) : Except CheckError Unit → List String
  | .ok _ => [p ++ ": pass"]
  | .error e => [p ++ ": failure", e.message]

/-- Observable outcome of a run that got past policy resolution: the
resolved policy pair, the per-file results in order, the per-file stdout
lines, the diagnostic lines sent to the error stream, the summary line and
the process exit code. -/
structure RunOutput (WL : Type) : Type where
  wasm_limits : WL
  available_capabilities : Finset String
  results : List (String × Except CheckError Unit)
  stdoutFileLines : List String
  stderrLines : List String
  summaryLine : String
  exitCode : Nat

instance {WL : Type} [DecidableEq WL] : DecidableEq (RunOutput WL) :=
  fun a b =>
    decidable_of_iff
      (a.wasm_limits = b.wasm_limits ∧
        a.available_capabilities = b.available_capabilities ∧
        a.results = b.results ∧ a.stdoutFileLines = b.stdoutFileLines ∧
        a.stderrLines = b.stderrLines ∧ a.summaryLine = b.summaryLine ∧
        a.exitCode = b.exitCode)
      (by cases a; cases b; simp)

/-- The batch loop and reporter of `main`: map `check_contract` over the
paths in order (printing each file's status lines immediately), partition
into passes and failures, print the summary, and exit 0 iff there is no
failure. -/
def runBatch {WL E M : Type} (w : World WL E M) (wasm_limits : WL)
    (available_capabilities : Finset String) (verbose : Bool)
    (paths : List String) : RunOutput WL :=
  let checked := paths.map (fun p =>
    (p, check_contract w p available_capabilities verbose wasm_limits))
  let results := checked.map (fun r => (r.1, r.2.1))
  let passes := results.filter (fun r => isOkE r.2)
  let failures := results.filter (fun r => !(isOkE r.2))
  { wasm_limits := wasm_limits
    available_capabilities := available_capabilities
    results := results
    stdoutFileLines := (checked.map (fun r => reportLines r.1 r.2.1)).flatten
    stderrLines := (checked.map (fun r => r.2.2)).flatten
    summaryLine :=
      if failures.isEmpty then
        "All contracts (" ++ toString passes.length ++ ") passed checks!"
      else
        "Passes: " ++ toString passes.length ++ ", failures: " ++
          toString failures.length
    exitCode := if failures.isEmpty then 0 else 1 }

/-- `main` from `main.rs` after CLI parsing: resolve the policy once (a
config-loading failure aborts the whole run before any file is touched;
the `.unwrap()` panic is modelled as the error branch), then run the batch
with the single resolved pair. -/
def main {WL E M : Type} (w : World WL E M) (config_file : Option String)
    (available_capabilities_csv : Option String) (verbose : Bool)
    (paths : List String) : Except ConfigError (RunOutput WL) :=
  match resolvePolicy w config_file available_capabilities_csv with
  | .error e => .error e
  | .ok pc => .ok (runBatch w pc.1 pc.2 verbose paths)

/-! ## A small concrete world used to exercise the development

`goodBytes` reads, validates and compiles; `badBytes` fails validation;
`midBytes` validates but fails to compile; `conf.bin` decodes to a config,
`junk.bin` does not. -/

def goodBytes : Bytes := [0, 97, 115, 109]

def badBytes : Bytes := [1]

def midBytes : Bytes := [2]

def demoWorld : World Nat Unit Unit where
  fs := fun p =>
    if p = "good.wasm" then .ok goodBytes
    else if p = "bad.wasm" then .ok badBytes
    else if p = "mid.wasm" then .ok midBytes
    else if p = "conf.bin" then .ok [7]
    else if p = "junk.bin" then .ok [9]
    else .error ("No such file or directory: " ++ p)
  decodeConfig := fun bytes =>
    if bytes = [7] then
      .ok { wasm_limits := 7, cache := { available_capabilities := {"iterator"} } }
    else .error "invalid msgpack"
  defaultLimits := 0
  validate := fun bytes _ _ =>
    if bytes = goodBytes ∨ bytes = midBytes then .ok ()
    else .error "missing marker export"
  diagnostics := fun _ _ _ => ["Max function count check"]
  freshEngine := fun _ => ()
  compileFn := fun _ bytes =>
    if bytes = goodBytes then .ok () else .error "compile failed"

/-! ## General lemmas about the batch loop -/

theorem runBatch_results {WL E M : Type} (w : World WL E M) (limits : WL)
    (caps : Finset String) (verbose : Bool) (paths : List String) :
    (runBatch w limits caps verbose paths).results =
      paths.map (fun p => (p, (check_contract w p caps verbose limits).1)) := by
  simp [runBatch, List.map_map, Function.comp]

theorem runBatch_stdout {WL E M : Type} (w : World WL E M) (limits : WL)
    (caps : Finset String) (verbose : Bool) (paths : List String) :
    (runBatch w limits caps verbose paths).stdoutFileLines =
      (paths.map
        (fun p => reportLines p (check_contract w p caps verbose limits).1)).flatten := by
  simp only [runBatch, List.map_map]
  rfl

/-- The pass/fail spine of `check_contract`: read, then validate, then
compile, with the first failure deciding the outcome. -/
theorem check_contract_fst {WL E M : Type} (w : World WL E M) (path : String)
    (caps : Finset String) (verbose : Bool) (limits : WL) :
    (check_contract w path caps verbose limits).1 =
      (match w.fs path with
      | .error e => .error (.IoError e)
      | .ok wasm =>
        match w.validate wasm caps limits with
        | .error e => .error (.ValidationError e)
        | .ok _ =>
          match w.compileFn (w.freshEngine ()) wasm with
          | .error e => .error (.CompileError e)
          | .ok _ => .ok ()) := by
  unfold check_contract
  cases w.fs path with
  | error e => rfl
  | ok wasm =>
    simp only [check_wasm_with_limits]
    cases w.validate wasm caps limits with
    | error e => rfl
    | ok u =>
      cases w.compileFn (w.freshEngine ()) wasm with
      | error e => rfl
      | ok m => rfl

theorem runBatch_summary {WL E M : Type} (w : World WL E M) (limits : WL)
    (caps : Finset String) (verbose : Bool) (paths : List String) :
    (runBatch w limits caps verbose paths).summaryLine =
      (if ((runBatch w limits caps verbose paths).results.filter
            (fun r => !(isOkE r.2))).isEmpty then
        "All contracts (" ++
          toString ((runBatch w limits caps verbose paths).results.filter
            (fun r => isOkE r.2)).length ++ ") passed checks!"
      else
        "Passes: " ++
          toString ((runBatch w limits caps verbose paths).results.filter
            (fun r => isOkE r.2)).length ++
          ", failures: " ++
          toString ((runBatch w limits caps verbose paths).results.filter
            (fun r => !(isOkE r.2))).length) := rfl

theorem runBatch_exit {WL E M : Type} (w : World WL E M) (limits : WL)
    (caps : Finset String) (verbose : Bool) (paths : List String) :
    (runBatch w limits caps verbose paths).exitCode =
      (if ((runBatch w limits caps verbose paths).results.filter
            (fun r => !(isOkE r.2))).isEmpty then 0 else 1) := rfl

/-! ## Claims -/

/-- C7: with neither `--available-capabilities` nor `--wasm-config`, the
resolved policy is the default limits together with the parse of the fixed
default capability list, which is exactly the nine-element set below. -/
theorem c7_default_policy {WL E M : Type} (w : World WL E M) :
    resolvePolicy w none none =
      .ok (w.defaultLimits, capabilities_from_csv DEFAULT_AVAILABLE_CAPABILITIES) ∧
    capabilities_from_csv DEFAULT_AVAILABLE_CAPABILITIES =
      {"iterator", "staking", "stargate", "cosmwasm_1_1", "cosmwasm_1_2",
        "cosmwasm_1_3", "cosmwasm_1_4", "cosmwasm_2_0", "cosmwasm_2_1"} :=
  ⟨rfl, by decide⟩

/-- C8: the resolved capability set of a CSV string contains exactly its
distinct comma-separated tokens, and two CSV inputs whose token lists agree
up to ordering and duplicates resolve to the same set. -/
theorem c8_csv_set_semantics (s₁ s₂ : String) :
    (∀ c, c ∈ capabilities_from_csv s₁ ↔ c ∈ csvTokens s₁) ∧
    (csvTokens s₁ ⊆ csvTokens s₂ → csvTokens s₂ ⊆ csvTokens s₁ →
      capabilities_from_csv s₁ = capabilities_from_csv s₂) := by
  refine ⟨fun c => ?_, fun h₁ h₂ => ?_⟩
  · simp [capabilities_from_csv]
  · apply Finset.ext
    intro c
    simp only [capabilities_from_csv, List.mem_toFinset]
    exact ⟨fun hc => h₁ hc, fun hc => h₂ hc⟩

theorem c8_csv_set_semantics_witness :
    capabilities_from_csv "staking,iterator,staking" =
      capabilities_from_csv "iterator,staking" :=
  (c8_csv_set_semantics "staking,iterator,staking" "iterator,staking").2
    (by decide) (by decide)

/-- C9: when both a config file and a capabilities CSV reach resolution, the
config file wins: the result does not depend on the CSV at all and equals
the pair taken from the decoded config. -/
theorem c9_config_precedence {WL E M : Type} (w : World WL E M) (cf : String)
    (csv₁ csv₂ : Option String) :
    resolvePolicy w (some cf) csv₁ = resolvePolicy w (some cf) csv₂ ∧
    (∀ c, read_config w cf = .ok c →
      resolvePolicy w (some cf) csv₁ =
        .ok (c.wasm_limits, c.cache.available_capabilities)) := by
  refine ⟨rfl, fun c h => ?_⟩
  simp [resolvePolicy, h]

theorem c9_config_precedence_witness :
    resolvePolicy demoWorld (some "conf.bin") (some "staking") =
      .ok (7, ({"iterator"} : Finset String)) :=
  (c9_config_precedence demoWorld "conf.bin" (some "staking") none).2
    { wasm_limits := 7, cache := { available_capabilities := {"iterator"} } }
    (by decide)

/-- C3: loading the config fails with `IoError` when the file cannot be
opened and with `DecodeError` wrapping the underlying cause when the bytes
do not decode; any such failure makes the whole run abort with that error —
for every path list, `main` returns the error and produces no `RunOutput`,
so zero files are checked. -/
theorem c3_config_load_failure {WL E M : Type} (w : World WL E M) (path : String)
    (csv : Option String) (verbose : Bool) (paths : List String) :
    (∀ e, w.fs path = .error e →
      read_config w path =
        .error (.IoError ("error opening config file: " ++ e))) ∧
    (∀ bytes e, w.fs path = .ok bytes → w.decodeConfig bytes = .error e →
      read_config w path =
        .error (.DecodeError ("error parsing config file: " ++ e))) ∧
    (∀ err, read_config w path = .error err →
      main w (some path) csv verbose paths = .error err) := by
  refine ⟨fun e he => ?_, fun bytes e hb he => ?_, fun err herr => ?_⟩
  · simp [read_config, he]
  · simp [read_config, hb, he]
  · simp [main, resolvePolicy, herr]

theorem c3_config_load_failure_witness :
    main demoWorld (some "junk.bin") none false ["good.wasm"] =
      .error (.DecodeError "error parsing config file: invalid msgpack") :=
  (c3_config_load_failure demoWorld "junk.bin" none false ["good.wasm"]).2.2
    (.DecodeError "error parsing config file: invalid msgpack") (by decide)

/-- C4: the per-file check succeeds exactly when read, validation and
compilation all succeed in that order; a read failure yields the `IoError`
whatever the validator and compiler would do, and a validation failure
yields the `ValidationError` whatever engine constructor and compiler are
installed — so compilation is never attempted after a validation failure. -/
theorem c4_check_pipeline {WL E M : Type} (w : World WL E M) (path : String)
    (caps : Finset String) (verbose : Bool) (limits : WL) :
    ((check_contract w path caps verbose limits).1 = .ok () ↔
      ∃ wasm, w.fs path = .ok wasm ∧ w.validate wasm caps limits = .ok () ∧
        ∃ m, w.compileFn (w.freshEngine ()) wasm = .ok m) ∧
    (∀ e, w.fs path = .error e →
      ∀ (vd : Bytes → Finset String → WL → Except String Unit)
        (fe : Unit → E) (cp : E → Bytes → Except String M),
        (check_contract { w with validate := vd, freshEngine := fe, compileFn := cp }
            path caps verbose limits).1 = .error (.IoError e)) ∧
    (∀ wasm e, w.fs path = .ok wasm → w.validate wasm caps limits = .error e →
      ∀ (fe : Unit → E) (cp : E → Bytes → Except String M),
        (check_contract { w with freshEngine := fe, compileFn := cp }
            path caps verbose limits).1 = .error (.ValidationError e)) := by
  refine ⟨?_, fun e he vd fe cp => ?_, fun wasm e hw hv fe cp => ?_⟩
  · constructor
    · intro h
      revert h
      unfold check_contract
      cases hfs : w.fs path with
      | error e => simp
      | ok wasm =>
        simp only [check_wasm_with_limits]
        cases hv : w.validate wasm caps limits with
        | error e => simp
        | ok u =>
          cases hc : w.compileFn (w.freshEngine ()) wasm with
          | error e => simp
          | ok m => exact fun _ => ⟨wasm, rfl, by simpa using hv, m, hc⟩
    · rintro ⟨wasm, hfs, hv, m, hc⟩
      unfold check_contract
      simp [hfs, check_wasm_with_limits, hv, hc]
  · unfold check_contract
    simp [he]
  · unfold check_contract
    simp [hw, check_wasm_with_limits, hv]

theorem c4_check_pipeline_witness :
    (check_contract
        { demoWorld with freshEngine := fun _ => (), compileFn := fun _ _ => .ok () }
        "bad.wasm" {"iterator"} false 0).1 =
      .error (.ValidationError "missing marker export") :=
  (c4_check_pipeline demoWorld "bad.wasm" {"iterator"} false 0).2.2
    badBytes "missing marker export" (by decide) (by decide)
    (fun _ => ()) (fun _ _ => .ok ())

/-- C6: the `--verbose` flag never alters the pass/fail outcome: the
per-file result is identical with and without it, the no-op logger emits no
error-stream line, every line emitted under verbose carries the display
identifier's prefix, and the batch results, summary and exit code agree
between the two settings. -/
theorem c6_verbose_does_not_affect_outcome {WL E M : Type} (w : World WL E M)
    (path : String) (caps : Finset String) (limits : WL) (paths : List String) :
    ((check_contract w path caps true limits).1 =
      (check_contract w path caps false limits).1) ∧
    ((check_contract w path caps false limits).2 = []) ∧
    (∀ l ∈ (check_contract w path caps true limits).2,
      ("    " ++ ((file_name path).getD path) ++ ": ").data <+: l.data) ∧
    ((runBatch w limits caps true paths).results =
        (runBatch w limits caps false paths).results ∧
      (runBatch w limits caps true paths).summaryLine =
        (runBatch w limits caps false paths).summaryLine ∧
      (runBatch w limits caps true paths).exitCode =
        (runBatch w limits caps false paths).exitCode) := by
  have hres : ∀ q : String, (check_contract w q caps true limits).1 =
      (check_contract w q caps false limits).1 := by
    intro q
    rw [check_contract_fst, check_contract_fst]
  have hoff : (check_contract w path caps false limits).2 = [] := by
    unfold check_contract
    cases hfs : w.fs path with
    | error e => rfl
    | ok wasm =>
      simp only [check_wasm_with_limits, Bool.false_eq_true, if_false]
      cases hv : w.validate wasm caps limits with
      | error e => rfl
      | ok u =>
        cases hc : w.compileFn (w.freshEngine ()) wasm with
        | error e => rfl
        | ok m => rfl
  have hpre : ∀ l ∈ (check_contract w path caps true limits).2,
      ("    " ++ ((file_name path).getD path) ++ ": ").data <+: l.data := by
    intro l hl
    revert hl
    unfold check_contract
    cases hfs : w.fs path with
    | error e => intro hl; exact absurd hl (by simp)
    | ok wasm =>
      simp only [check_wasm_with_limits, if_pos]
      have hsnd : ∀ r : Except CheckError Unit,
          (r, ((w.diagnostics wasm caps limits).map
            (fun l => ("    " ++ ((file_name path).getD path) ++ ": ") ++ l))).2 =
          (w.diagnostics wasm caps limits).map
            (fun l => ("    " ++ ((file_name path).getD path) ++ ": ") ++ l) :=
        fun _ => rfl
      cases hv : w.validate wasm caps limits with
      | error e =>
        intro hl
        simp only [List.mem_map] at hl
        obtain ⟨d, _, hd⟩ := hl
        rw [← hd]
        exact ⟨d.data, by simp [String.data_append]⟩
      | ok u =>
        cases hc : w.compileFn (w.freshEngine ()) wasm with
        | error e =>
          intro hl
          simp only [List.mem_map] at hl
          obtain ⟨d, _, hd⟩ := hl
          rw [← hd]
          exact ⟨d.data, by simp [String.data_append]⟩
        | ok m =>
          intro hl
          simp only [List.mem_map] at hl
          obtain ⟨d, _, hd⟩ := hl
          rw [← hd]
          exact ⟨d.data, by simp [String.data_append]⟩
  have hr : (runBatch w limits caps true paths).results =
      (runBatch w limits caps false paths).results := by
    rw [runBatch_results, runBatch_results]
    exact List.map_congr_left (fun q _ => by rw [hres q])
  refine ⟨hres path, hoff, hpre, hr, ?_, ?_⟩
  · rw [runBatch_summary, runBatch_summary, hr]
  · rw [runBatch_exit, runBatch_exit, hr]

theorem c6_verbose_does_not_affect_outcome_witness :
    ("    good.wasm: ").data <+: ("    good.wasm: Max function count check").data :=
  (c6_verbose_does_not_affect_outcome demoWorld "good.wasm" {"iterator"} 0 []).2.2.1
    "    good.wasm: Max function count check" (by decide)

/-- C1: when every file's check succeeds the summary line is
`All contracts (<N>) passed checks!` with `N` the number of input files and
the exit status is 0; when at least one fails the summary line is
`Passes: <P>, failures: <F>` where `P` and `F` are the pass and failure
counts, `P + F` equals the number of input files, `F` is positive, and the
exit status is 1. -/
theorem c1_summary_and_exit {WL E M : Type} (w : World WL E M) (limits : WL)
    (caps : Finset String) (verbose : Bool) (paths : List String) :
    ((∀ r ∈ (runBatch w limits caps verbose paths).results, isOkE r.2 = true) →
      (runBatch w limits caps verbose paths).summaryLine =
        "All contracts (" ++ toString paths.length ++ ") passed checks!" ∧
      (runBatch w limits caps verbose paths).exitCode = 0) ∧
    ((∃ r ∈ (runBatch w limits caps verbose paths).results, isOkE r.2 = false) →
      (runBatch w limits caps verbose paths).summaryLine =
        "Passes: " ++
          toString ((runBatch w limits caps verbose paths).results.filter
            (fun r => isOkE r.2)).length ++
          ", failures: " ++
          toString ((runBatch w limits caps verbose paths).results.filter
            (fun r => !(isOkE r.2))).length ∧
      ((runBatch w limits caps verbose paths).results.filter
          (fun r => isOkE r.2)).length +
        ((runBatch w limits caps verbose paths).results.filter
          (fun r => !(isOkE r.2))).length = paths.length ∧
      0 < ((runBatch w limits caps verbose paths).results.filter
          (fun r => !(isOkE r.2))).length ∧
      (runBatch w limits caps verbose paths).exitCode = 1) := by
  have hlen : (runBatch w limits caps verbose paths).results.length = paths.length := by
    rw [runBatch_results, List.length_map]
  constructor
  · intro h
    have hfail : (runBatch w limits caps verbose paths).results.filter
        (fun r => !(isOkE r.2)) = [] := by
      apply List.filter_eq_nil_iff.mpr
      intro r hr
      simp [h r hr]
    have hpass : (runBatch w limits caps verbose paths).results.filter
        (fun r => isOkE r.2) = (runBatch w limits caps verbose paths).results :=
      List.filter_eq_self.mpr h
    constructor
    · rw [runBatch_summary, hfail, hpass, hlen]
      rfl
    · rw [runBatch_exit, hfail]
      rfl
  · rintro ⟨r, hr, hrf⟩
    have hmem : r ∈ (runBatch w limits caps verbose paths).results.filter
        (fun r => !(isOkE r.2)) := by
      rw [List.mem_filter]
      exact ⟨hr, by simp [hrf]⟩
    have hne : (runBatch w limits caps verbose paths).results.filter
        (fun r => !(isOkE r.2)) ≠ [] := List.ne_nil_of_mem hmem
    have hempty : ((runBatch w limits caps verbose paths).results.filter
        (fun r => !(isOkE r.2))).isEmpty = false := by
      rw [Bool.eq_false_iff]
      intro hc
      exact hne (List.isEmpty_iff.mp hc)
    refine ⟨?_, ?_, ?_, ?_⟩
    · rw [runBatch_summary, hempty]
      rfl
    · rw [← hlen]
      exact ((runBatch w limits caps verbose paths).results.length_eq_length_filter_add
        (fun r => isOkE r.2)).symm
    · exact List.length_pos.mpr hne
    · rw [runBatch_exit, hempty]
      rfl

theorem c1_summary_and_exit_witness :
    ((runBatch demoWorld 0 {"iterator"} false ["good.wasm"]).summaryLine =
        "All contracts (1) passed checks!" ∧
      (runBatch demoWorld 0 {"iterator"} false ["good.wasm"]).exitCode = 0) ∧
    ((runBatch demoWorld 0 {"iterator"} false
        ["good.wasm", "bad.wasm"]).summaryLine = "Passes: 1, failures: 1" ∧
      (runBatch demoWorld 0 {"iterator"} false
        ["good.wasm", "bad.wasm"]).exitCode = 1) := by
  have h1 := (c1_summary_and_exit demoWorld 0 {"iterator"} false ["good.wasm"]).1
    (by decide)
  have h2 := (c1_summary_and_exit demoWorld 0 {"iterator"} false
    ["good.wasm", "bad.wasm"]).2 ⟨("bad.wasm",
      .error (.ValidationError "missing marker export")), by decide, by decide⟩
  refine ⟨⟨h1.1, h1.2⟩, ?_, h2.2.2.2⟩
  rw [h2.1]
  decide

/-- C2: policy resolution produces exactly one pair before any file is
checked: from the decoded config (limits and the capability set nested in
its cache) when a config path is given, otherwise the parse of the CSV flag
or of the fixed default list together with the default limits; and `main`
applies that single pair uniformly to every input file. -/
theorem c2_policy_resolution {WL E M : Type} (w : World WL E M)
    (cf csv : Option String) (verbose : Bool) (paths : List String) :
    (∀ p c, cf = some p → read_config w p = .ok c →
      resolvePolicy w cf csv = .ok (c.wasm_limits, c.cache.available_capabilities)) ∧
    (cf = none →
      resolvePolicy w cf csv =
        .ok (w.defaultLimits,
          capabilities_from_csv (csv.getD DEFAULT_AVAILABLE_CAPABILITIES))) ∧
    (∀ limits caps, resolvePolicy w cf csv = .ok (limits, caps) →
      main w cf csv verbose paths = .ok (runBatch w limits caps verbose paths) ∧
      (runBatch w limits caps verbose paths).results =
        paths.map (fun p => (p, (check_contract w p caps verbose limits).1))) := by
  refine ⟨fun p c hp hc => ?_, fun hn => ?_, fun limits caps h => ?_⟩
  · subst hp
    simp [resolvePolicy, hc]
  · subst hn
    rfl
  · exact ⟨by simp [main, h], runBatch_results w limits caps verbose paths⟩

theorem c2_policy_resolution_witness :
    resolvePolicy demoWorld (some "conf.bin") none =
      .ok (7, ({"iterator"} : Finset String)) ∧
    main demoWorld (some "conf.bin") none false ["good.wasm"] =
      .ok (runBatch demoWorld 7 {"iterator"} false ["good.wasm"]) := by
  have ha := (c2_policy_resolution demoWorld (some "conf.bin") none false
    ["good.wasm"]).1 "conf.bin"
    { wasm_limits := 7, cache := { available_capabilities := {"iterator"} } }
    rfl (by decide)
  have hb := (c2_policy_resolution demoWorld (some "conf.bin") none false
    ["good.wasm"]).2.2 7 {"iterator"} ha
  exact ⟨ha, hb.1⟩

/-- C5: per-file failures are isolated — the result at every position is the
check of the file at that position, whatever happens at other positions —
and every input file yields exactly its own status lines: `<path>: pass` on
success, `<path>: failure` followed by the diagnostic on failure, emitted in
the per-file stream. -/
theorem c5_isolation_and_status_lines {WL E M : Type} (w : World WL E M)
    (limits : WL) (caps : Finset String) (verbose : Bool) (paths : List String) :
    (runBatch w limits caps verbose paths).results.length = paths.length ∧
    (∀ (i : Nat) (p : String), paths[i]? = some p →
      (runBatch w limits caps verbose paths).results[i]? =
        some (p, (check_contract w p caps verbose limits).1)) ∧
    (runBatch w limits caps verbose paths).stdoutFileLines =
      (paths.map
        (fun p => reportLines p (check_contract w p caps verbose limits).1)).flatten ∧
    (∀ p, (check_contract w p caps verbose limits).1 = .ok () →
      reportLines p (check_contract w p caps verbose limits).1 = [p ++ ": pass"]) ∧
    (∀ p e, (check_contract w p caps verbose limits).1 = .error e →
      reportLines p (check_contract w p caps verbose limits).1 =
        [p ++ ": failure", e.message]) := by
  refine ⟨?_, fun i p hp => ?_, runBatch_stdout w limits caps verbose paths,
    fun p hp => by rw [hp]; rfl, fun p e hp => by rw [hp]; rfl⟩
  · rw [runBatch_results, List.length_map]
  · rw [runBatch_results, List.getElem?_map, hp]
    rfl

theorem c5_isolation_and_status_lines_witness :
    (runBatch demoWorld 0 {"iterator"} false
      ["bad.wasm", "good.wasm"]).results[1]? =
      some ("good.wasm", .ok ()) := by
  have h := (c5_isolation_and_status_lines demoWorld 0 {"iterator"} false
    ["bad.wasm", "good.wasm"]).2.1 1 "good.wasm" (by decide)
  rw [h]
  decide

/-- C10: files are checked in command-line order — the results list is the
in-order map of the per-file check over the paths and the status lines are
their in-order concatenation — a path given more than once is checked at
each occurrence (each occurrence's result is its own check of that path)
and contributes once per occurrence to the counts. -/
theorem c10_sequential_order {WL E M : Type} (w : World WL E M) (limits : WL)
    (caps : Finset String) (verbose : Bool) (paths : List String) :
    (runBatch w limits caps verbose paths).results =
      paths.map (fun p => (p, (check_contract w p caps verbose limits).1)) ∧
    (runBatch w limits caps verbose paths).stdoutFileLines =
      (paths.map
        (fun p => reportLines p (check_contract w p caps verbose limits).1)).flatten ∧
    (∀ p, ((runBatch w limits caps verbose paths).results.filter
        (fun r => r.1 == p)).length = paths.count p) ∧
    (∀ r ∈ (runBatch w limits caps verbose paths).results,
      r.2 = (check_contract w r.1 caps verbose limits).1) := by
  refine ⟨runBatch_results w limits caps verbose paths,
    runBatch_stdout w limits caps verbose paths, fun p => ?_, fun r hr => ?_⟩
  · rw [runBatch_results, ← List.countP_eq_length_filter, List.countP_map,
      List.count]
    rfl
  · rw [runBatch_results] at hr
    obtain ⟨q, hq, rfl⟩ := List.mem_map.mp hr
    rfl

theorem c10_sequential_order_witness :
    ("bad.wasm",
        (Except.error (CheckError.ValidationError "missing marker export") :
          Except CheckError Unit)).2 =
      (check_contract demoWorld "bad.wasm" {"iterator"} false 0).1 :=
  (c10_sequential_order demoWorld 0 {"iterator"} false
    ["good.wasm", "bad.wasm", "bad.wasm"]).2.2.2
    ("bad.wasm", .error (.ValidationError "missing marker export")) (by decide)

end CosmwasmCheck
